import Mathlib

/-!
Shallow embedding of the validation-and-organization core of the
libbitcoin-style blockchain library (validate_block.cpp,
transaction_pool.cpp, populate/populate_block.cpp,
populate/populate_chain_state.cpp), together with proofs settling the
specification claims about it.

External collaborators (hashing, script serialization, the script
interpreter, the fast-chain reader, hash_number arithmetic) are modelled
as explicit environment parameters, exactly as the specification treats
them (injected capabilities).  Machine integers are modelled as Nat;
size_t overflow never occurs on the values the code handles here, and
where an external big-number class is used (hash_number) it is modelled
as an unbounded Nat.  The caller-supplied stopped() predicate is
modelled as a constant Boolean per validator invocation; the source
polls it at each check boundary, and with a constant value consecutive
polls collapse.
-/

/-- Error codes used by the sources (libbitcoin error enum members that
appear in the four source files).  `unknown` is produced by
connect_block1 but is not part of the specification's §7 taxonomy. -/
inductive Code where
  | success
  | service_stopped
  | operation_failed
  | not_found
  | size_limits
  | first_not_coinbase
  | extra_coinbases
  | duplicate
  | merkle_mismatch
  | too_many_sigs
  | proof_of_work
  | incorrect_proof_of_work
  | futuristic_timestamp
  | timestamp_too_early
  | checkpoints_failed
  | old_version_block
  | coinbase_height_mismatch
  | non_final_transaction
  | input_not_found
  | duplicate_or_spent
  | validate_inputs_failed
  | pool_filled
  | blockchain_reorganized
  | unknown
  deriving DecidableEq, Repr

/-- The §7 error taxonomy of the specification: Service, Structural,
Header-consensus, Transaction-consensus and Pool errors, plus Success.
`unknown` is deliberately absent. -/
def inTaxonomy : Code → Bool
  | Code.success => true
  | Code.service_stopped => true
  | Code.operation_failed => true
  | Code.not_found => true
  | Code.size_limits => true
  | Code.first_not_coinbase => true
  | Code.extra_coinbases => true
  | Code.duplicate => true
  | Code.merkle_mismatch => true
  | Code.too_many_sigs => true
  | Code.proof_of_work => true
  | Code.incorrect_proof_of_work => true
  | Code.futuristic_timestamp => true
  | Code.timestamp_too_early => true
  | Code.checkpoints_failed => true
  | Code.old_version_block => true
  | Code.coinbase_height_mismatch => true
  | Code.non_final_transaction => true
  | Code.input_not_found => true
  | Code.duplicate_or_spent => true
  | Code.validate_inputs_failed => true
  | Code.pool_filled => true
  | Code.blockchain_reorganized => true
  | Code.unknown => false

/-! ## Data model (§3): hashes are opaque 32-byte identifiers, modelled
as Nat.  Transaction and block hashing is external (double-SHA256), so a
transaction and a header carry their hash as an opaque field. -/

/-- A script operation: raw opcode byte plus attached push data. -/
structure Operation where
  code : Nat
  data : List Nat
  deriving DecidableEq, Repr

/-- A script: an operation stack. -/
structure Script where
  operations : List Operation
  deriving DecidableEq, Repr

/-- An output point: (hash, index) reference to a previous output. -/
structure OutputPoint where
  hash : Nat
  index : Nat
  deriving DecidableEq, Repr

/-- Transaction input: previous output reference plus script. -/
structure Input where
  previous_output : OutputPoint
  script : Script
  deriving DecidableEq, Repr

/-- Transaction output: value plus script. -/
structure Output where
  value : Nat
  script : Script
  deriving DecidableEq, Repr

/-- Transaction, with the (externally computed) double-SHA256 hash kept
as an opaque field. -/
structure Transaction where
  inputs : List Input
  outputs : List Output
  hash : Nat
  deriving DecidableEq, Repr

/-- Block header; `hash` is the opaque double-SHA256 of its
serialization, `merkle` the claimed merkle root. -/
structure Header where
  version : Nat
  timestamp : Nat
  bits : Nat
  merkle : Nat
  hash : Nat
  deriving DecidableEq, Repr

/-- A block: header plus ordered transaction list. -/
structure Block where
  header : Header
  transactions : List Transaction
  deriving DecidableEq, Repr

/-- The all-zero hash. -/
def null_hash : Nat := 0

/-- Modelled from the spec: chain::transaction::is_coinbase (external
library) — a transaction is a coinbase iff it has exactly one input
whose previous-output hash is the all-zero hash. -/
def Transaction.is_coinbase (tx : Transaction) : Bool :=
  match tx.inputs with
  | [i] => i.previous_output.hash == null_hash
  | _ => false

/-! ## Constants (validate_block.cpp lines 46-69 and the external
wire-compatible constants of §6). -/

def max_block_size : Nat := 1000000

def max_block_script_sig_operations : Nat := max_block_size / 50

def max_version1_height : Nat := 237370

def bip30_exception_block1 : Nat := 91842

def bip30_exception_block2 : Nat := 91880

def target_timespan : Nat := 2 * 7 * 24 * 60 * 60

def target_spacing : Nat := 10 * 60

def readjustment_interval : Nat := target_timespan / target_spacing

/-- External libbitcoin constant max_work_bits (compact encoding of the
maximum target), 0x1d00ffff. -/
def max_work_bits : Nat := 486604799

/-- External libbitcoin constant coinbase_maturity. -/
def coinbase_maturity : Nat := 100

/-- External libbitcoin constant max_money = 21,000,000 * 10^8. -/
def max_money : Nat := 21000000 * 100000000

/-! ## Opcode raw values (external chain::opcode enum members used by
the source).  `special` is the raw-push opcode family marker. -/

def op_special : Nat := 1

def op_1 : Nat := 81

def op_16 : Nat := 96

def op_checksig : Nat := 172

def op_checksigverify : Nat := 173

def op_checkmultisig : Nat := 174

def op_checkmultisigverify : Nat := 175

def op_bad_operation : Nat := 255

/-! ## Sigops counting (validate_block.cpp lines 217-287). -/

/-- within_op_n (validate_block.cpp line 217). -/
def within_op_n (code : Nat) : Bool :=
  op_1 ≤ code && code ≤ op_16

/-- decode_op_n (validate_block.cpp line 225). -/
def decode_op_n (code : Nat) : Nat :=
  code - op_1 + 1

/-- Loop body of count_script_sigops, carrying last_opcode. -/
def count_script_sigops_go (accurate : Bool) (last : Nat) :
    List Operation → Nat
  | [] => 0
  | op :: rest =>
    let add :=
      if op.code = op_checksig ∨ op.code = op_checksigverify then 1
      else if op.code = op_checkmultisig ∨ op.code = op_checkmultisigverify then
        (if accurate && within_op_n last then decode_op_n last else 20)
      else 0
    add + count_script_sigops_go accurate op.code rest

/-- count_script_sigops (validate_block.cpp line 235): last_opcode
starts as bad_operation. -/
def count_script_sigops (operations : List Operation) (accurate : Bool) : Nat :=
  count_script_sigops_go accurate op_bad_operation operations

/-- legacy_sigops_count over one transaction (validate_block.cpp
line 262): inputs then outputs, pessimistic counting. -/
def legacy_sigops_count (tx : Transaction) : Nat :=
  (tx.inputs.map (fun input => count_script_sigops input.script.operations false)).sum +
    (tx.outputs.map (fun output => count_script_sigops output.script.operations false)).sum

/-- legacy_sigops_count over a transaction list (validate_block.cpp
line 280). -/
def legacy_sigops_count_txs (txs : List Transaction) : Nat :=
  (txs.map legacy_sigops_count).sum

/-! ## check_block (validate_block.cpp lines 96-215). -/

/-- External hash_number operations used by is_valid_proof_of_work:
set_compact returns none when the compact decoding fails, set_hash maps
a hash to its big-endian numeric value. -/
structure NumberEnv where
  set_compact : Nat → Option Nat
  set_hash : Nat → Nat
  max_target : Nat

/-- is_valid_proof_of_work (validate_block.cpp line 203). -/
def is_valid_proof_of_work (env : NumberEnv) (hash bits : Nat) : Bool :=
  match env.set_compact bits with
  | none => false
  | some target =>
    if target = 0 ∨ target > env.max_target then false
    else env.set_hash hash ≤ target

/-- is_valid_time_stamp (validate_block.cpp line 196): block time must
not exceed the current time plus two hours (seconds). -/
def is_valid_time_stamp (current_time timestamp : Nat) : Bool :=
  timestamp ≤ current_time + 2 * 3600

/-- is_distinct_tx_set (validate_block.cpp lines 177-189): the source
maps transactions to hashes and applies std::unique WITHOUT sorting, so
only adjacent equal hashes are detected. -/
def adjacent_distinct : List Nat → Bool
  | a :: b :: rest => a ≠ b && adjacent_distinct (b :: rest)
  | _ => true

/-- is_distinct_tx_set over the transaction list. -/
def is_distinct_tx_set (txs : List Transaction) : Bool :=
  adjacent_distinct (txs.map (fun t => t.hash))

/-- First nonzero error code produced by per-transaction context-free
checks, in order (the check_transaction loop of check_block). -/
def first_tx_error (check : Transaction → Code) : List Transaction → Code
  | [] => Code.success
  | t :: rest =>
    if check t ≠ Code.success then check t else first_tx_error check rest

/-- Environment of check_block: the constant stopped() poll value, the
wall clock, and the external collaborators (serialized_size,
hash_number arithmetic, validate_transaction::check_transaction, merkle
root computation). -/
structure CheckEnv where
  stopped : Bool
  current_time : Nat
  serialized_size : Block → Nat
  num : NumberEnv
  check_transaction : Transaction → Code
  merkle_root : List Transaction → Nat

/-- check_block (validate_block.cpp lines 96-175).  The stopped() polls
inside the loops collapse to one poll per boundary because stopped is
modelled as a constant for the invocation. -/
def check_block (env : CheckEnv) (b : Block) : Code :=
  let txs := b.transactions
  if txs.isEmpty || txs.length > max_block_size ||
      env.serialized_size b > max_block_size then Code.size_limits
  else if !(is_valid_proof_of_work env.num b.header.hash b.header.bits) then
    Code.proof_of_work
  else if env.stopped then Code.service_stopped
  else if !(is_valid_time_stamp env.current_time b.header.timestamp) then
    Code.futuristic_timestamp
  else if env.stopped then Code.service_stopped
  else
    match txs with
    | [] => Code.success
    | first :: rest =>
      if !first.is_coinbase then Code.first_not_coinbase
      else if env.stopped then Code.service_stopped
      else if rest.any (fun t => t.is_coinbase) then Code.extra_coinbases
      else
        let ec := first_tx_error env.check_transaction (first :: rest)
        if env.stopped then Code.service_stopped
        else if ec ≠ Code.success then ec
        else if env.stopped then Code.service_stopped
        else if !(is_distinct_tx_set (first :: rest)) then Code.duplicate
        else if env.stopped then Code.service_stopped
        else if legacy_sigops_count_txs (first :: rest) >
            max_block_script_sig_operations then Code.too_many_sigs
        else if env.stopped then Code.service_stopped
        else if b.header.merkle ≠ env.merkle_root (first :: rest) then
          Code.merkle_mismatch
        else Code.success

/-! ## connect_block and its BIP30 phase (validate_block.cpp
lines 441-502). -/

/-- Environment of the connect_block BIP30 phase: the constant stopped()
value plus the injected chain accessors. -/
structure ConnectEnv where
  stopped : Bool
  transaction_exists : Nat → Bool
  is_output_spent : OutputPoint → Bool

/-- First non-success result, modelling the synchronize join of a
parallel dispatch: the handler fires exactly once, with an error when
any branch failed and success otherwise. -/
def first_error : List Code → Code
  | [] => Code.success
  | c :: rest => if c ≠ Code.success then c else first_error rest

/-- check_output_spent (validate_block.cpp lines 494-502). -/
def check_output_spent (env : ConnectEnv) (point : OutputPoint) : Code :=
  if env.stopped then Code.service_stopped
  else if env.is_output_spent point then Code.success
  else Code.duplicate_or_spent

/-- check_spent_duplicate (validate_block.cpp lines 471-492): if the
hash exists in the chain, every one of the transaction's outputs must
be spent. -/
def check_spent_duplicate (env : ConnectEnv) (tx : Transaction) : Code :=
  if env.stopped then Code.service_stopped
  else if !env.transaction_exists tx.hash then Code.success
  else
    let points := (List.range tx.outputs.length).map
      (fun index => OutputPoint.mk tx.hash index)
    first_error (points.map (check_output_spent env))

/-- connect_block1 (validate_block.cpp lines 462-466): the continuation
after the BIP30 phase.  The source discards the incoming error code and
completes with error::unknown — the per-input connection stage is
commented out. -/
def connect_block1 (env : ConnectEnv) (_ec : Code) : Code :=
  if env.stopped then Code.service_stopped else Code.unknown

/-- connect_block (validate_block.cpp lines 441-460): skip the BIP30
phase at the two exception heights, otherwise join the parallel
check_spent_duplicate results, then continue with connect_block1. -/
def connect_block (env : ConnectEnv) (height : Nat) (b : Block) : Code :=
  if env.stopped then Code.service_stopped
  else
    let skip_bip30_rule :=
      height = bip30_exception_block1 ∨ height = bip30_exception_block2
    let ec :=
      if skip_bip30_rule then Code.success
      else first_error (b.transactions.map (check_spent_duplicate env))
    connect_block1 env ec

/-! ## work_required (validate_block.cpp lines 347-405, non-testnet
build: ENABLE_TESTNET is not defined). -/

/-- External libbitcoin utility range_constrain: clamp value into
[lower, upper]. -/
def range_constrain (value lower upper : Nat) : Nat :=
  if value < lower then lower
  else if value > upper then upper
  else value

/-- Injected chain accessors and external hash_number arithmetic used
by work_required.  hash_number is modelled as an unbounded Nat:
set_compact decodes compact bits to a target, compact re-encodes. -/
structure WorkEnv where
  previous_block_bits : Nat
  actual_timespan : Nat → Nat
  set_compact : Nat → Nat
  compact : Nat → Nat
  max_target : Nat

/-- work_required (validate_block.cpp lines 347-405), non-testnet
branch. -/
def work_required (env : WorkEnv) (height : Nat) : Nat :=
  if height = 0 then max_work_bits
  else if height % readjustment_interval ≠ 0 then env.previous_block_bits
  else
    let actual := env.actual_timespan readjustment_interval
    let constrained :=
      range_constrain actual (target_timespan / 4) (target_timespan * 4)
    let retarget := env.set_compact env.previous_block_bits * constrained
    let retarget := retarget / target_timespan
    let retarget := if retarget > env.max_target then env.max_target else retarget
    env.compact retarget

/-! ## accept_block (validate_block.cpp lines 289-345) and
is_valid_coinbase_height (lines 407-439). -/

/-- External script machinery used by is_valid_coinbase_height:
chain::script::to_data(false) serialization and
script_number(height).data(). -/
structure ScriptEnv where
  to_data : Script → List Nat
  number_data : Nat → List Nat

/-- is_valid_coinbase_height (validate_block.cpp lines 407-439).  Note
the strict comparison: the check is waived only for height strictly
below max_version1_height.  The expected script holds one special-push
of the height as a script number; the serialized expectation must be a
prefix of the serialized coinbase input script. -/
def is_valid_coinbase_height (env : ScriptEnv) (height : Nat) (b : Block) :
    Bool :=
  if height < max_version1_height then true
  else
    match b.transactions with
    | [] => false
    | coinbase_tx :: _ =>
      if b.header.version < 2 then false
      else
        match coinbase_tx.inputs with
        | [] => false
        | first_input :: _ =>
          let raw_coinbase := env.to_data first_input.script
          let expect :=
            env.to_data (Script.mk [Operation.mk op_special (env.number_data height)])
          expect.isPrefixOf raw_coinbase

/-- Modelled from the spec: checkpoint::validate (checkpoint.cpp is not
under src/) — at any checkpoint height the block hash must match the
checkpoint hash exactly; at non-checkpoint heights the check always
passes. -/
def checkpoint_validate (hash height : Nat)
    (checkpoints : List (Nat × Nat)) : Bool :=
  checkpoints.all (fun cp => cp.1 ≠ height || cp.2 = hash)

/-- Environment of accept_block: constant stopped() value, the injected
chain accessors for work_required and median_time_past, the external
transaction finality test tx.is_final(height, timestamp), the
checkpoint list, and the script machinery of the coinbase-height
check. -/
structure AcceptEnv where
  stopped : Bool
  work : WorkEnv
  median_time_past : Nat
  is_final : Transaction → Nat → Nat → Bool
  checkpoints : List (Nat × Nat)
  script : ScriptEnv

/-- Finality loop of accept_block: per transaction, the finality test
first, then the stopped() poll. -/
def accept_finality (env : AcceptEnv) (height timestamp : Nat) :
    List Transaction → Code
  | [] => Code.success
  | tx :: rest =>
    if !env.is_final tx height timestamp then Code.non_final_transaction
    else if env.stopped then Code.service_stopped
    else accept_finality env height timestamp rest

/-- accept_block (validate_block.cpp lines 289-345). -/
def accept_block (env : AcceptEnv) (height : Nat) (b : Block) : Code :=
  if b.header.bits ≠ work_required env.work height then
    Code.incorrect_proof_of_work
  else if env.stopped then Code.service_stopped
  else if b.header.timestamp ≤ env.median_time_past then
    Code.timestamp_too_early
  else if env.stopped then Code.service_stopped
  else
    let final := accept_finality env height b.header.timestamp b.transactions
    if final ≠ Code.success then final
    else if !(checkpoint_validate b.header.hash height env.checkpoints) then
      Code.checkpoints_failed
    else if env.stopped then Code.service_stopped
    else if b.header.version < 2 ∧ height > max_version1_height then
      Code.old_version_block
    else if env.stopped then Code.service_stopped
    else if 2 ≤ b.header.version ∧
        !(is_valid_coinbase_height env.script height b) then
      Code.coinbase_height_mismatch
    else Code.success

/-! ## connect_input (validate_block.cpp lines 600-702). -/

/-- Environment of connect_input: the injected chain accessors
(fetch_transaction returning the previous transaction and its height,
the three-argument is_output_spent), the external script interpreter
validate_consensus, and the external script classification/parsing used
by the P2SH sigops count. -/
structure InputEnv where
  height : Nat
  header : Header
  fetch_transaction : Nat → Option (Transaction × Nat)
  is_output_spent3 : OutputPoint → Nat → Nat → Bool
  validate_consensus : Script → Transaction → Nat → Header → Nat → Bool
  is_script_hash : Script → Bool
  parse_script : List Nat → Option Script

/-- script_hash_signature_operations_count (validate_block.cpp
lines 600-619): none models the end_of_stream throw on a malformed
redeem script. -/
def script_hash_signature_operations_count (env : InputEnv)
    (output_script input_script : Script) : Option Nat :=
  if !env.is_script_hash output_script then some 0
  else
    match input_script.operations.getLast? with
    | none => some 0
    | some last_op =>
      match env.parse_script last_op.data with
      | none => none
      | some eval_script => some (count_script_sigops eval_script.operations true)

/-- connect_input (validate_block.cpp lines 621-702).  The result is
none when an indexed access leaves its container's bounds (the source
performs the access unchecked: inputs[input_index] is guarded only by
an assert, and previous_tx.outputs[previous_output.index] is entirely
unguarded).  Otherwise some (ok, value_in, total_sigops) carries the
boolean outcome and the updated accumulators. -/
def connect_input (env : InputEnv) (index_in_parent : Nat)
    (current_tx : Transaction) (input_index value_in total_sigops : Nat) :
    Option (Bool × Nat × Nat) :=
  match current_tx.inputs[input_index]? with
  | none => none
  | some input =>
    let previous_output := input.previous_output
    match env.fetch_transaction previous_output.hash with
    | none => some (false, value_in, total_sigops)
    | some (previous_tx, previous_height) =>
      match previous_tx.outputs[previous_output.index]? with
      | none => none
      | some previous_tx_out =>
        match script_hash_signature_operations_count env
            previous_tx_out.script input.script with
        | none => some (false, value_in, total_sigops)
        | some ops =>
          let total_sigops := total_sigops + ops
          if total_sigops > max_block_script_sig_operations then
            some (false, value_in, total_sigops)
          else
            let output_value := previous_tx_out.value
            if output_value > max_money then
              some (false, value_in, total_sigops)
            else if previous_tx.is_coinbase &&
                decide (env.height - previous_height < coinbase_maturity) then
              some (false, value_in, total_sigops)
            else if !env.validate_consensus previous_tx_out.script current_tx
                input_index env.header env.height then
              some (false, value_in, total_sigops)
            else if env.is_output_spent3 previous_output index_in_parent
                input_index then
              some (false, value_in, total_sigops)
            else
              let value_in := value_in + output_value
              if value_in > max_money then some (false, value_in, total_sigops)
              else some (true, value_in, total_sigops)

/-! ## Transaction pool (transaction_pool.cpp).  The pool buffer is a
circular buffer of entries {hash, tx, on_confirm}; the on_confirm
handler of an entry is identified by an opaque id.  Handler firings are
recorded as an event list (handler id, code), in firing order. -/

/-- A pool entry: precomputed transaction hash and the identity of its
on_confirm handler. -/
structure TxEntry where
  hash : Nat
  id : Nat
  deriving DecidableEq, Repr

/-- Pool state: the buffer in front-to-back order, the fixed capacity,
and the stopped flag. -/
structure PoolState where
  buffer : List TxEntry
  capacity : Nat
  stopped : Bool
  deriving DecidableEq, Repr

/-- A confirmation-handler firing: (handler id, error code). -/
abbrev ConfirmEvent := Nat × Code

/-- A validation-handler firing: (error code, unconfirmed index list). -/
abbrev ValidateEvent := Code × List Nat

/-- tx_exists (transaction_pool.cpp line 145): linear scan by hash. -/
def tx_exists (st : PoolState) (hash : Nat) : Bool :=
  st.buffer.any (fun entry => entry.hash = hash)

/-- try_delete_tx (transaction_pool.cpp lines 310-327).  The source
applies std::remove_if with a predicate that fires on_confirm(Success)
on each matching entry, but DISCARDS the returned iterator without
erasing: matching entries' handlers fire, the kept entries are shifted
to the front, and the positions from the new logical end onward retain
their prior values — the buffer size is unchanged. -/
def try_delete_tx (st : PoolState) (hash : Nat) :
    PoolState × List ConfirmEvent :=
  if st.stopped then (st, [])
  else
    let kept := st.buffer.filter (fun entry => entry.hash ≠ hash)
    let fired := (st.buffer.filter (fun entry => entry.hash = hash)).map
      (fun entry => (entry.id, Code.success))
    ({ st with buffer := kept ++ st.buffer.drop kept.length }, fired)

/-- Sequential try_delete_tx over a list of hashes (the nested loop of
delete_confirmed). -/
def run_deletes (st : PoolState) : List Nat → PoolState × List ConfirmEvent
  | [] => (st, [])
  | hash :: rest =>
    let step := try_delete_tx st hash
    let next := run_deletes step.1 rest
    (next.1, step.2 ++ next.2)

/-- delete_confirmed (transaction_pool.cpp lines 294-308): on a pure
extension, delete every transaction of the new blocks from the pool. -/
def delete_confirmed (st : PoolState) (new_blocks : List Block) :
    PoolState × List ConfirmEvent :=
  if st.stopped then (st, [])
  else if st.buffer.isEmpty then (st, [])
  else run_deletes st
    (new_blocks.flatMap (fun b => b.transactions.map (fun tx => tx.hash)))

/-- invalidate_pool (transaction_pool.cpp lines 279-292): fire every
entry's on_confirm(blockchain_reorganized) and clear the buffer. -/
def invalidate_pool (st : PoolState) : PoolState × List ConfirmEvent :=
  if st.stopped then (st, [])
  else
    ({ st with buffer := [] },
      st.buffer.map (fun entry => (entry.id, Code.blockchain_reorganized)))

/-- reorganize (transaction_pool.cpp lines 238-277): a service_stopped
or error event stops the pool; a success event dispatches
delete_confirmed on a pure extension and invalidate_pool on a true
reorg.  (The resubscription is not modelled: it does not affect the
buffer or the handler firings of this event.) -/
def pool_reorganize (st : PoolState) (ec : Code)
    (new_blocks replaced_blocks : List Block) :
    PoolState × List ConfirmEvent :=
  if ec = Code.service_stopped then ({ st with stopped := true }, [])
  else if ec ≠ Code.success then ({ st with stopped := true }, [])
  else if replaced_blocks.isEmpty then delete_confirmed st new_blocks
  else invalidate_pool st

/-- store_transaction, the storage lambda of store (transaction_pool.cpp
lines 167-183): at capacity the front entry's handler fires pool_filled
and the circular buffer drops it on push_back. -/
def store_transaction (st : PoolState) (entry : TxEntry) :
    PoolState × List ConfirmEvent :=
  if st.buffer.length = st.capacity then
    match st.buffer with
    | [] => ({ st with buffer := [entry] }, [])
    | front :: rest =>
      ({ st with buffer := rest ++ [entry] }, [(front.id, Code.pool_filled)])
  else ({ st with buffer := st.buffer ++ [entry] }, [])

/-- validation_complete (transaction_pool.cpp lines 112-143), given the
validation outcome (ec, unconfirmed) delivered by the external
validate_transaction: input_not_found / validate_inputs_failed pass the
unconfirmed list through, any other error passes an empty list, success
re-checks for a duplicate in the pool. -/
def validation_complete (st : PoolState) (ec : Code)
    (unconfirmed : List Nat) (tx_hash : Nat) : ValidateEvent :=
  if ec = Code.input_not_found ∨ ec = Code.validate_inputs_failed then
    (ec, unconfirmed)
  else if ec ≠ Code.success then (ec, [])
  else if tx_exists st tx_hash then (Code.duplicate, [])
  else (Code.success, unconfirmed)

/-- store (transaction_pool.cpp lines 160-195).  If the pool is stopped
it returns immediately — no handler fires, nothing changes ("We can
pretend we did it here").  Otherwise the validation outcome flows
through validation_complete into wrap_validate, which stores the entry
on success and always fires the validation handler once.  The external
validation outcome is passed as (ec, unconfirmed). -/
def pool_store (st : PoolState) (tx_hash handler_id : Nat)
    (validation : Code × List Nat) :
    PoolState × List ConfirmEvent × List ValidateEvent :=
  if st.stopped then (st, [], [])
  else
    let result := validation_complete st validation.1 validation.2 tx_hash
    if result.1 = Code.success then
      let stored := store_transaction st (TxEntry.mk tx_hash handler_id)
      (stored.1, stored.2, [result])
    else (st, [], [result])

/-! ## Chain-state population (populate/populate_chain_state.cpp).  The
header branch and the fast-chain reader are modelled as per-height
lookup functions returning none when the height is not covered; the
C++ out-parameter-and-bool convention maps to Option.  The block_index
flag is absorbed into the chain lookups (it is threaded unchanged). -/

/-- Branch and fast-chain per-height lookups. -/
structure LookupEnv where
  branch_bits : Nat → Option Nat
  branch_version : Nat → Option Nat
  branch_timestamp : Nat → Option Nat
  branch_block_hash : Nat → Option Nat
  chain_bits : Nat → Option Nat
  chain_version : Nat → Option Nat
  chain_timestamp : Nat → Option Nat
  chain_block_hash : Nat → Option Nat

/-- get_bits (populate_chain_state.cpp lines 51-56): branch first, the
fast chain only when the branch does not cover the height
(short-circuiting ||). -/
def get_bits (env : LookupEnv) (height : Nat) : Option Nat :=
  (env.branch_bits height).orElse (fun _ => env.chain_bits height)

/-- get_version (populate_chain_state.cpp lines 58-63). -/
def get_version (env : LookupEnv) (height : Nat) : Option Nat :=
  (env.branch_version height).orElse (fun _ => env.chain_version height)

/-- get_timestamp (populate_chain_state.cpp lines 65-70). -/
def get_timestamp (env : LookupEnv) (height : Nat) : Option Nat :=
  (env.branch_timestamp height).orElse (fun _ => env.chain_timestamp height)

/-- get_block_hash (populate_chain_state.cpp lines 72-77). -/
def get_block_hash (env : LookupEnv) (height : Nat) : Option Nat :=
  (env.branch_block_hash height).orElse (fun _ => env.chain_block_hash height)

/-- One (high, count) range of the chain-state map. -/
structure MapRange where
  high : Nat
  count : Nat

/-- The chain-state map (external chain_state::get_map): the exact set
of historical heights required.  Unrequested sentinel values map to
none. -/
structure ChainMap where
  bits : MapRange
  bits_self : Nat
  version : MapRange
  version_self : Nat
  timestamp : MapRange
  timestamp_self : Nat
  timestamp_retarget : Option Nat
  allow_collisions_height : Option Nat

/-- The heights enumerated by a populate loop over a map range: the
loop starts at high - count and pre-increments, producing
high - count + 1 + i for i < count. -/
def attr_heights (r : MapRange) : List Nat :=
  (List.range r.count).map (fun i => r.high + 1 - r.count + i)

/-- Fetch every height of a list, failing when any lookup fails (the
early-return of the populate loops). -/
def get_all (f : Nat → Option Nat) : List Nat → Option (List Nat)
  | [] => some []
  | h :: rest =>
    match f h, get_all f rest with
    | some v, some vs => some (v :: vs)
    | _, _ => none

/-- This value should never be read (populate_chain_state.cpp
line 37). -/
def unspecified_timestamp : Nat := 4294967295

/-- populate_bits (populate_chain_state.cpp lines 79-92): the ordered
vector over the map range, then bits_self. -/
def populate_bits (env : LookupEnv) (map : ChainMap) :
    Option (List Nat × Nat) :=
  match get_all (get_bits env) (attr_heights map.bits) with
  | none => none
  | some ordered =>
    match get_bits env map.bits_self with
    | none => none
    | some self => some (ordered, self)

/-- populate_versions (populate_chain_state.cpp lines 94-107). -/
def populate_versions (env : LookupEnv) (map : ChainMap) :
    Option (List Nat × Nat) :=
  match get_all (get_version env) (attr_heights map.version) with
  | none => none
  | some ordered =>
    match get_version env map.version_self with
    | none => none
    | some self => some (ordered, self)

/-- The retarget fetch of populate_timestamps (populate_chain_state.cpp
lines 122-128): the retarget timestamp when requested, otherwise the
unspecified sentinel the field was initialized with. -/
def populate_retarget (env : LookupEnv) (map : ChainMap) : Option Nat :=
  match map.timestamp_retarget with
  | none => some unspecified_timestamp
  | some h => get_timestamp env h

/-- populate_timestamps (populate_chain_state.cpp lines 109-132): the
ordered vector, then the retarget timestamp when requested (otherwise
the unspecified sentinel), then timestamp_self. -/
def populate_timestamps (env : LookupEnv) (map : ChainMap) :
    Option (List Nat × Nat × Nat) :=
  match get_all (get_timestamp env) (attr_heights map.timestamp) with
  | none => none
  | some ordered =>
    match populate_retarget env map with
    | none => none
    | some retarget =>
      match get_timestamp env map.timestamp_self with
      | none => none
      | some self => some (ordered, retarget, self)

/-- populate_checkpoint (populate_chain_state.cpp lines 134-146): the
allow-collisions block hash when requested, the null hash otherwise. -/
def populate_checkpoint (env : LookupEnv) (map : ChainMap) : Option Nat :=
  match map.allow_collisions_height with
  | none => some null_hash
  | some h => get_block_hash env h

/-- The populated chain-state data (chain_state::data). -/
structure ChainData where
  bits_ordered : List Nat
  bits_self : Nat
  version_ordered : List Nat
  version_self : Nat
  timestamp_ordered : List Nat
  timestamp_self : Nat
  timestamp_retarget : Nat
  allow_collisions_hash : Nat

/-- populate_all (populate_chain_state.cpp lines 148-160): bits,
versions, timestamps, checkpoint, short-circuiting on the first
failure. -/
def populate_all (env : LookupEnv) (map : ChainMap) : Option ChainData :=
  match populate_bits env map with
  | none => none
  | some bits =>
    match populate_versions env map with
    | none => none
    | some versions =>
      match populate_timestamps env map with
      | none => none
      | some timestamps =>
        match populate_checkpoint env map with
        | none => none
        | some collisions_hash =>
          some (ChainData.mk bits.1 bits.2 versions.1 versions.2
            timestamps.1 timestamps.2.2 timestamps.2.1 collisions_hash)

/-- populate (branch overload, populate_chain_state.cpp lines 188-216):
an empty branch yields no state; a top parent that already carries a
state is promoted (external chain_state promotion constructor,
modelled as an opaque function); otherwise the state is fully
populated. -/
def populate_branch (env : LookupEnv) (map : ChainMap)
    (branch_empty : Bool) (parent_state : Option ChainData)
    (promote : ChainData → ChainData) : Option ChainData :=
  if branch_empty then none
  else
    match parent_state with
    | some s => some (promote s)
    | none => populate_all env map

/-- Some attribute required by the chain-state map is available neither
from the branch nor from the fast chain. -/
def required_missing (env : LookupEnv) (map : ChainMap) : Prop :=
  (∃ h ∈ attr_heights map.bits, get_bits env h = none) ∨
  get_bits env map.bits_self = none ∨
  (∃ h ∈ attr_heights map.version, get_version env h = none) ∨
  get_version env map.version_self = none ∨
  (∃ h ∈ attr_heights map.timestamp, get_timestamp env h = none) ∨
  (∃ h, map.timestamp_retarget = some h ∧ get_timestamp env h = none) ∨
  get_timestamp env map.timestamp_self = none ∨
  (∃ h, map.allow_collisions_height = some h ∧ get_block_hash env h = none)

/-! ## Populate pipeline bucketing (populate/populate_block.cpp). -/

/-- The strided loop `for (position = first; position < n; position +=
step)` of the per-transaction pass, as the list of visited positions.
The positive-step guard mirrors the source's assertion that the bucket
count is nonzero (ceiling_add never saturates on these values). -/
def stride (n step : Nat) (position : Nat) : List Nat :=
  if _h : 0 < step ∧ position < n then
    position :: stride n step (position + step)
  else []
termination_by n - position
decreasing_by omega

/-- Transaction positions visited by a bucket in the per-transaction
pass (populate_block.cpp lines 127, 136-141): bucket 0 starts at
buckets to skip the coinbase, bucket b starts at b. -/
def tx_positions (bucket buckets n : Nat) : List Nat :=
  stride n buckets (if bucket = 0 then buckets else bucket)

/-- Global input positions visited by a bucket within one transaction
holding sz inputs, the global position of its first input being pos
(populate_block.cpp lines 149-158): position p is visited iff
p % buckets = bucket. -/
def input_positions_tx (bucket buckets pos sz : Nat) : List Nat :=
  (List.range sz).filterMap
    (fun i => if (pos + i) % buckets = bucket then some (pos + i) else none)

/-- The per-input pass over the non-coinbase transactions' input list
sizes, carrying the running global input position. -/
def input_positions_go (bucket buckets : Nat) :
    List Nat → Nat → List Nat
  | [], _ => []
  | sz :: rest, pos =>
    input_positions_tx bucket buckets pos sz ++
      input_positions_go bucket buckets rest (pos + sz)

/-- Global input positions visited by a bucket (populate_block.cpp
lines 144-159): the loop skips the coinbase (txs.begin() + 1). -/
def input_positions (bucket buckets : Nat) (txs : List Transaction) :
    List Nat :=
  input_positions_go bucket buckets
    ((txs.drop 1).map (fun t => t.inputs.length)) 0

/-- block::total_non_coinbase_inputs as consumed by the populate loops:
the inputs of every transaction after the coinbase. -/
def total_non_coinbase_inputs (txs : List Transaction) : Nat :=
  ((txs.drop 1).map (fun t => t.inputs.length)).sum

/-- The bucket count chosen by populate (populate_block.cpp line 79):
min(worker slots, non-coinbase input count). -/
def populate_buckets (slots : Nat) (txs : List Transaction) : Nat :=
  min slots (total_non_coinbase_inputs txs)

/-- The visits performed by populate_transactions for one bucket
(populate_block.cpp lines 117-162): the per-transaction pass runs
unless the chain is stale AND allow_collisions is enabled; the
per-input pass always runs. -/
def populate_transactions_visits (stale collisions : Bool)
    (bucket buckets : Nat) (txs : List Transaction) :
    List Nat × List Nat :=
  ((if !stale || !collisions then tx_positions bucket buckets txs.length
    else []),
   input_positions bucket buckets txs)

/-! ## Claim C1: connect_block completion. -/

/-- A running (not stopped) connect environment over an empty chain. -/
def connect_env_a : ConnectEnv :=
  { stopped := false
    transaction_exists := fun _ => false
    is_output_spent := fun _ => false }

/-- A minimal block: one coinbase transaction. -/
def block_a : Block :=
  { header := Header.mk 1 0 0 0 0
    transactions := [Transaction.mk [Input.mk (OutputPoint.mk 0 0) (Script.mk [])] [] 1] }

/-- C1: the claim states that when the BIP30 duplicate phase reports
success, connect_block completes with Success when all per-input checks
pass and otherwise with an error from the §7 taxonomy.  The code's
connect_block1 discards the BIP30 result and performs no per-input
connection at all: it completes with error::unknown, which lies outside
the taxonomy.  Here the BIP30 phase succeeds (no transaction exists in
the chain) yet connect_block completes with unknown. -/
theorem c1_connect_block_completes_unknown :
    first_error (block_a.transactions.map (check_spent_duplicate connect_env_a)) =
      Code.success ∧
    connect_block connect_env_a 0 block_a = Code.unknown ∧
    inTaxonomy Code.unknown = false :=
  ⟨rfl, rfl, rfl⟩

/-! ## Claim C2: tx-hash distinctness. -/

/-- Check environment in which every external check passes. -/
def check_env_a : CheckEnv :=
  { stopped := false
    current_time := 100
    serialized_size := fun _ => 1000
    num := { set_compact := fun _ => some 1, set_hash := fun _ => 0, max_target := 10 }
    check_transaction := fun _ => Code.success
    merkle_root := fun _ => 9 }

/-- A block whose transaction hashes are [1, 2, 1]: a duplicate pair in
non-adjacent positions.  The first transaction is the coinbase; the
others spend a non-null previous output. -/
def block_b : Block :=
  { header := Header.mk 2 5 0 9 3
    transactions :=
      [Transaction.mk [Input.mk (OutputPoint.mk 0 0) (Script.mk [])] [] 1,
       Transaction.mk [Input.mk (OutputPoint.mk 7 0) (Script.mk [])] [] 2,
       Transaction.mk [Input.mk (OutputPoint.mk 7 1) (Script.mk [])] [] 1] }

/-- C2: the claim states that check_block fails with Duplicate iff the
multiset of transaction hashes contains any two equal hashes, regardless
of position.  The source's is_distinct_tx_set applies std::unique
without sorting, so only ADJACENT duplicates are detected: on hashes
[1, 2, 1] — which are not distinct — every earlier check passes and
check_block completes with Success instead of Duplicate. -/
theorem c2_nonadjacent_duplicate_passes :
    check_block check_env_a block_b = Code.success ∧
    is_distinct_tx_set block_b.transactions = true ∧
    ¬ (block_b.transactions.map (fun t => t.hash)).Nodup :=
  ⟨rfl, rfl, by decide⟩

/-! ## Claim C9: store on a stopped pool. -/

/-- C9: calling transaction_pool::store while the pool is stopped
returns without invoking the confirmation or validation handler and
leaves the pool state (hence the buffer) unchanged. -/
theorem c9_store_stopped (st : PoolState) (tx_hash handler_id : Nat)
    (validation : Code × List Nat) (h : st.stopped = true) :
    pool_store st tx_hash handler_id validation = (st, [], []) := by
  simp [pool_store, h]

/-- Witness for C9 at a concrete stopped pool. -/
theorem c9_store_stopped_witness :
    pool_store (PoolState.mk [TxEntry.mk 1 2] 3 true) 5 6 (Code.success, []) =
      (PoolState.mk [TxEntry.mk 1 2] 3 true, [], []) :=
  c9_store_stopped _ 5 6 _ rfl

/-! ## Claim C10: connect_input's unchecked output indexing. -/

/-- C10: connect_input indexes the fetched previous transaction's
output list by the input's previous-output index with no bounds check;
in the total embedding (indexing through Option) the out-of-range
branch is reached whenever fetch_transaction succeeds and the index is
not below the output count. -/
theorem c10_connect_input_unguarded_index (env : InputEnv)
    (index_in_parent : Nat) (tx : Transaction)
    (input_index value_in total_sigops : Nat) (input : Input)
    (ptx : Transaction) (ph : Nat)
    (h1 : tx.inputs[input_index]? = some input)
    (h2 : env.fetch_transaction input.previous_output.hash = some (ptx, ph))
    (h3 : ptx.outputs.length ≤ input.previous_output.index) :
    connect_input env index_in_parent tx input_index value_in total_sigops =
      none := by
  simp [connect_input, h1, h2, List.getElem?_eq_none h3]

/-- Input environment whose chain returns a previous transaction with
no outputs for every hash. -/
def input_env_a : InputEnv :=
  { height := 0
    header := Header.mk 1 0 0 0 0
    fetch_transaction := fun _ => some (Transaction.mk [] [] 7, 0)
    is_output_spent3 := fun _ _ _ => false
    validate_consensus := fun _ _ _ _ _ => true
    is_script_hash := fun _ => false
    parse_script := fun _ => none }

/-- Witness for C10: a successful fetch whose referenced output index 3
exceeds the previous transaction's (empty) output list. -/
theorem c10_connect_input_unguarded_index_witness :
    connect_input input_env_a 0
      (Transaction.mk [Input.mk (OutputPoint.mk 7 3) (Script.mk [])] [] 9) 0 0 0 =
      none :=
  c10_connect_input_unguarded_index input_env_a 0 _ 0 0 0
    (Input.mk (OutputPoint.mk 7 3) (Script.mk []))
    (Transaction.mk [] [] 7) 0 rfl rfl (by decide)

/-! ## Claim C5: work_required. -/

/-- range_constrain is the clamp into [lower, upper]. -/
theorem range_constrain_eq_clamp (value lower upper : Nat) (h : lower ≤ upper) :
    range_constrain value lower upper = min (max value lower) upper := by
  unfold range_constrain
  split
  · omega
  · split <;> omega

/-- The source's cap `if retarget > max_target then max_target else
retarget` is the minimum. -/
theorem cap_eq_min (a b : Nat) : (if a > b then b else a) = min a b := by
  split <;> omega

/-- C5: work_required returns max_work_bits at height 0; at heights not
divisible by 2016 it returns the previous block's bits; at a positive
retarget height it clamps the actual timespan into
[target_timespan/4, target_timespan*4], multiplies the previous target
by the clamped value, divides by target_timespan, caps the result at
max_target, and returns its compact encoding (non-testnet build). -/
theorem c5_work_required (env : WorkEnv) (height : Nat) :
    work_required env 0 = max_work_bits ∧
    (height % 2016 ≠ 0 → work_required env height = env.previous_block_bits) ∧
    (0 < height → height % 2016 = 0 →
      work_required env height =
        env.compact (min
          (env.set_compact env.previous_block_bits *
            min (max (env.actual_timespan 2016) (target_timespan / 4))
              (target_timespan * 4) / target_timespan)
          env.max_target)) := by
  have hri : readjustment_interval = 2016 := by decide
  refine ⟨by simp [work_required], ?_, ?_⟩
  · intro hmod
    have h0 : ¬ (height = 0) := by
      intro h; rw [h] at hmod; exact hmod rfl
    have hmod2 : height % readjustment_interval ≠ 0 := by rw [hri]; exact hmod
    simp only [work_required]
    rw [if_neg h0, if_pos hmod2]
  · intro hpos hmod
    have h0 : ¬ (height = 0) := by omega
    have hmod2 : ¬ (height % readjustment_interval ≠ 0) := by
      rw [hri]; exact fun hc => hc hmod
    simp only [work_required]
    rw [if_neg h0, if_neg hmod2, range_constrain_eq_clamp _ _ _ (by decide),
      cap_eq_min, hri]

/-- A concrete work environment for the C5 witness. -/
def work_env_a : WorkEnv :=
  { previous_block_bits := 3
    actual_timespan := fun _ => 1209600
    set_compact := fun b => b * 10
    compact := fun t => t + 1
    max_target := 1000 }

/-- Witness for C5 at the retarget height 2016. -/
theorem c5_work_required_witness :
    2016 % 2016 = 0 ∧
    work_required work_env_a 2016 =
      work_env_a.compact (min
        (work_env_a.set_compact work_env_a.previous_block_bits *
          min (max (work_env_a.actual_timespan 2016) (target_timespan / 4))
            (target_timespan * 4) / target_timespan)
        work_env_a.max_target) :=
  ⟨by decide, (c5_work_required work_env_a 2016).2.2 (by decide) (by decide)⟩

/-! ## Claim C3: try_delete_tx on a pure extension. -/

/-- A running pool holding one entry with hash 5, handler id 0. -/
def pool_state_a : PoolState :=
  { buffer := [TxEntry.mk 5 0], capacity := 10, stopped := false }

/-- A new block containing a transaction with hash 5. -/
def block_c : Block :=
  { header := Header.mk 1 0 0 0 0, transactions := [Transaction.mk [] [] 5] }

/-- C3: the claim states that on a pure extension (empty replaced list)
a pool entry whose hash matches a transaction of the new blocks has its
on_confirm fired with Success AND is removed from the pool buffer.  The
handler does fire, but try_delete_tx discards the iterator returned by
std::remove_if without erasing, so the buffer still contains the entry
afterwards (its size is unchanged). -/
theorem c3_confirmed_entry_not_removed :
    (pool_reorganize pool_state_a Code.success [block_c] []).2 =
      [(0, Code.success)] ∧
    (pool_reorganize pool_state_a Code.success [block_c] []).1.buffer =
      [TxEntry.mk 5 0] :=
  ⟨rfl, rfl⟩

/-! ## Claim C4: reorg with a non-empty replaced list. -/

/-- In the firing list of a buffer with pairwise distinct handler ids,
each held id appears with the given code exactly once. -/
theorem count_pair_map (c : Code) (i : Nat) :
    ∀ l : List TxEntry, (l.map (fun e => e.id)).Nodup →
      i ∈ l.map (fun e => e.id) →
      (l.map (fun e => (e.id, c))).count (i, c) = 1
  | [], _, hmem => by simp at hmem
  | a :: rest, hids, hmem => by
    simp only [List.map_cons, List.nodup_cons] at hids
    simp only [List.map_cons, List.mem_cons] at hmem
    simp only [List.map_cons]
    rcases hmem with h1 | h2
    · subst h1
      have hnot : (a.id, c) ∉ rest.map (fun e => (e.id, c)) := by
        intro hc
        rcases List.mem_map.mp hc with ⟨e, he, heq⟩
        have heid : e.id = a.id := congrArg Prod.fst heq
        exact hids.1 (heid ▸ List.mem_map_of_mem _ he)
      rw [List.count_cons_self, List.count_eq_zero.mpr hnot]
    · have hne : (i, c) ≠ (a.id, c) := by
        intro hc
        have heid : i = a.id := congrArg Prod.fst hc
        exact hids.1 (heid ▸ h2)
      rw [List.count_cons_of_ne hne]
      exact count_pair_map c i rest hids.2 h2

/-- C4: after a success reorg event with a non-empty replaced-block
list is processed by a running pool, the buffer is empty and each
previously held entry's on_confirm has been fired with
blockchain_reorganized exactly once (entries carry distinct
handlers). -/
theorem c4_reorg_invalidates_pool (st : PoolState)
    (new_blocks replaced_blocks : List Block)
    (hrun : st.stopped = false) (hrep : replaced_blocks ≠ [])
    (hids : (st.buffer.map (fun e => e.id)).Nodup) :
    (pool_reorganize st Code.success new_blocks replaced_blocks).1.buffer = [] ∧
    (pool_reorganize st Code.success new_blocks replaced_blocks).2 =
      st.buffer.map (fun e => (e.id, Code.blockchain_reorganized)) ∧
    ∀ e ∈ st.buffer,
      (pool_reorganize st Code.success new_blocks replaced_blocks).2.count
        (e.id, Code.blockchain_reorganized) = 1 := by
  have hre : replaced_blocks.isEmpty = false := by
    cases replaced_blocks with
    | nil => exact absurd rfl hrep
    | cons b bs => rfl
  have hmain : pool_reorganize st Code.success new_blocks replaced_blocks =
      ({ st with buffer := [] },
        st.buffer.map (fun e => (e.id, Code.blockchain_reorganized))) := by
    simp [pool_reorganize, invalidate_pool, hre, hrun]
  refine ⟨by rw [hmain], by rw [hmain], ?_⟩
  intro e he
  rw [hmain]
  show (st.buffer.map (fun x => (x.id, Code.blockchain_reorganized))).count
      (e.id, Code.blockchain_reorganized) = 1
  exact count_pair_map Code.blockchain_reorganized e.id st.buffer hids
    (List.mem_map_of_mem _ he)

/-- A running pool holding two entries with distinct handlers. -/
def pool_state_b : PoolState :=
  { buffer := [TxEntry.mk 5 0, TxEntry.mk 6 1], capacity := 10, stopped := false }

/-- Witness for C4 at a concrete reorg replacing one block. -/
theorem c4_reorg_invalidates_pool_witness :
    (pool_reorganize pool_state_b Code.success []
      [Block.mk (Header.mk 1 0 0 0 0) []]).1.buffer = [] ∧
    (pool_reorganize pool_state_b Code.success []
      [Block.mk (Header.mk 1 0 0 0 0) []]).2 =
      pool_state_b.buffer.map (fun e => (e.id, Code.blockchain_reorganized)) ∧
    ∀ e ∈ pool_state_b.buffer,
      (pool_reorganize pool_state_b Code.success []
        [Block.mk (Header.mk 1 0 0 0 0) []]).2.count
        (e.id, Code.blockchain_reorganized) = 1 :=
  c4_reorg_invalidates_pool pool_state_b [] [Block.mk (Header.mk 1 0 0 0 0) []]
    rfl (by decide) (by decide)

/-! ## Claim C6: the BIP34 coinbase-height check. -/

/-- A concrete script machinery: the model serialization writes, for a
special push, the data length byte followed by the data; the model
script number is the three-byte little-endian encoding. -/
def script_env_a : ScriptEnv :=
  { to_data := fun s => s.operations.flatMap
      (fun op => if op.code = op_special then op.data.length :: op.data
                 else [op.code])
    number_data := fun n => [n % 256, n / 256 % 256, n / 65536 % 256] }

/-- An accept environment in which every check preceding the
coinbase-height check passes for block_d. -/
def accept_env_a : AcceptEnv :=
  { stopped := false
    work := { previous_block_bits := 17
              actual_timespan := fun _ => 0
              set_compact := fun b => b
              compact := fun t => t
              max_target := 0 }
    median_time_past := 0
    is_final := fun _ _ _ => true
    checkpoints := []
    script := script_env_a }

/-- A version-2 block whose coinbase input script serializes to [1, 0],
which does not begin with the push of any six-digit height. -/
def block_d : Block :=
  { header := Header.mk 2 5 17 0 0
    transactions :=
      [Transaction.mk
        [Input.mk (OutputPoint.mk 0 0) (Script.mk [Operation.mk op_special [0]])]
        [] 1] }

/-- C6 counterexample: the claim states that with version ≥ 2 at every
height ≤ max_version1_height (237370) accept_block does not fail with
CoinbaseHeightMismatch.  The source waives the check only for heights
STRICTLY below max_version1_height, so at height exactly 237370 a
version-2 block whose coinbase script does not start with the height
push fails with CoinbaseHeightMismatch although every earlier accept
check passes. -/
theorem c6_boundary_counterexample :
    (237370 ≤ max_version1_height ∧ 2 ≤ block_d.header.version) ∧
    accept_block accept_env_a 237370 block_d = Code.coinbase_height_mismatch :=
  ⟨⟨by decide, by decide⟩, rfl⟩

/-- The finality loop returns success when every transaction is final
and the validator is not stopped. -/
theorem accept_finality_success (env : AcceptEnv) (height ts : Nat)
    (l : List Transaction) (hstop : env.stopped = false)
    (hfin : ∀ tx ∈ l, env.is_final tx height ts = true) :
    accept_finality env height ts l = Code.success := by
  induction l with
  | nil => rfl
  | cons t rest ih =>
    simp only [accept_finality, hfin t (List.mem_cons_self t rest),
      Bool.not_true, hstop]
    simp only [Bool.false_eq_true, if_false]
    exact ih (fun tx hm => hfin tx (List.mem_cons_of_mem t hm))

/-- C6 amended: for a running validator whose earlier accept checks all
pass, a block with version ≥ 2 is never failed with
CoinbaseHeightMismatch at heights STRICTLY below max_version1_height
(accept_block succeeds), and at heights ≥ max_version1_height it fails
with CoinbaseHeightMismatch exactly when the serialization of the
coinbase's first input script does not begin with the canonical push of
the height as a script number. -/
theorem c6_coinbase_height_amended (env : AcceptEnv) (height : Nat)
    (b : Block) (cb : Transaction) (rest : List Transaction)
    (inp : Input) (irest : List Input)
    (htxs : b.transactions = cb :: rest)
    (hinp : cb.inputs = inp :: irest)
    (hstop : env.stopped = false)
    (hbits : b.header.bits = work_required env.work height)
    (hmtp : env.median_time_past < b.header.timestamp)
    (hfin : ∀ tx ∈ b.transactions,
      env.is_final tx height b.header.timestamp = true)
    (hcp : checkpoint_validate b.header.hash height env.checkpoints = true)
    (hver : 2 ≤ b.header.version) :
    (height < max_version1_height →
      accept_block env height b = Code.success) ∧
    (max_version1_height ≤ height →
      (accept_block env height b = Code.coinbase_height_mismatch ↔
        ((env.script.to_data (Script.mk
            [Operation.mk op_special (env.script.number_data height)])).isPrefixOf
          (env.script.to_data inp.script)) = false)) := by
  have hfinal := accept_finality_success env height b.header.timestamp
    b.transactions hstop hfin
  have hacc : accept_block env height b =
      (if 2 ≤ b.header.version ∧
          !(is_valid_coinbase_height env.script height b) then
        Code.coinbase_height_mismatch
      else Code.success) := by
    simp only [accept_block, hbits, hstop, Nat.not_le.mpr hmtp, hfinal, hcp,
      Nat.not_lt.mpr hver, ne_eq, not_true_eq_false, Bool.not_true,
      Bool.false_eq_true, if_false, false_and, ite_false, if_true,
      not_false_eq_true]
    try simp
  constructor
  · intro hlt
    have hvalid : is_valid_coinbase_height env.script height b = true := by
      unfold is_valid_coinbase_height
      rw [if_pos hlt]
    rw [hacc, hvalid]
    simp
  · intro hge
    have hvalid : is_valid_coinbase_height env.script height b =
        ((env.script.to_data (Script.mk
            [Operation.mk op_special (env.script.number_data height)])).isPrefixOf
          (env.script.to_data inp.script)) := by
      simp only [is_valid_coinbase_height, Nat.not_lt.mpr hge, htxs,
        Nat.not_lt.mpr hver, hinp, if_false, ite_false]
      try simp
    rw [hacc, hvalid]
    cases hpre : ((env.script.to_data (Script.mk
        [Operation.mk op_special (env.script.number_data height)])).isPrefixOf
        (env.script.to_data inp.script)) <;> simp [hpre, hver]

/-- Witness for the amended C6 at height 100 < max_version1_height:
accept_block succeeds on block_d. -/
theorem c6_coinbase_height_amended_witness :
    accept_block accept_env_a 100 block_d = Code.success :=
  (c6_coinbase_height_amended accept_env_a 100 block_d
    (Transaction.mk
      [Input.mk (OutputPoint.mk 0 0) (Script.mk [Operation.mk op_special [0]])]
      [] 1)
    []
    (Input.mk (OutputPoint.mk 0 0) (Script.mk [Operation.mk op_special [0]]))
    []
    rfl rfl rfl (by decide) (by decide) (by decide) (by decide) (by decide)).1
    (by decide)

/-! ## Claim C7: chain-state population. -/

/-- get_all fails exactly when some height of the list has no value. -/
theorem get_all_eq_none (f : Nat → Option Nat) (hs : List Nat) :
    get_all f hs = none ↔ ∃ h ∈ hs, f h = none := by
  induction hs with
  | nil => simp [get_all]
  | cons h rest ih =>
    constructor
    · intro hnone
      cases hf : f h with
      | none => exact ⟨h, List.mem_cons_self h rest, hf⟩
      | some v =>
        cases hr : get_all f rest with
        | none =>
          rcases ih.mp hr with ⟨h2, hm2, hf2⟩
          exact ⟨h2, List.mem_cons_of_mem h hm2, hf2⟩
        | some vs =>
          rw [get_all, hf, hr] at hnone
          simp at hnone
    · rintro ⟨h2, hm2, hf2⟩
      rcases List.mem_cons.mp hm2 with he | hm3
      · subst he
        cases hr : get_all f rest <;> rw [get_all, hf2, hr]
      · have hrest : get_all f rest = none := ih.mpr ⟨h2, hm3, hf2⟩
        cases hf : f h <;> rw [get_all, hf, hrest]

/-- get_all returns one value per requested height. -/
theorem get_all_length (f : Nat → Option Nat) (hs : List Nat) :
    ∀ vs, get_all f hs = some vs → vs.length = hs.length := by
  induction hs with
  | nil =>
    intro vs h
    simp only [get_all, Option.some.injEq] at h
    rw [← h]
  | cons hh rest ih =>
    intro vs h
    rw [get_all] at h
    cases hf : f hh <;> rw [hf] at h
    · simp at h
    · cases hr : get_all f rest <;> rw [hr] at h
      · simp at h
      · simp only [Option.some.injEq] at h
        rw [← h]
        simp [ih _ hr]

/-- populate_bits fails exactly when a required bits attribute is
missing. -/
theorem populate_bits_eq_none (env : LookupEnv) (map : ChainMap) :
    populate_bits env map = none ↔
      (∃ h ∈ attr_heights map.bits, get_bits env h = none) ∨
        get_bits env map.bits_self = none := by
  rw [populate_bits]
  cases hg : get_all (get_bits env) (attr_heights map.bits) with
  | none =>
    simp only [true_iff]
    exact Or.inl ((get_all_eq_none _ _).mp hg)
  | some ordered =>
    cases hs : get_bits env map.bits_self with
    | none => simp
    | some s =>
      simp only [reduceCtorEq, false_iff, not_or]
      refine ⟨?_, by simp [hs]⟩
      intro hex
      rw [(get_all_eq_none _ _).mpr hex] at hg
      exact absurd hg (by simp)

/-- populate_versions fails exactly when a required version attribute
is missing. -/
theorem populate_versions_eq_none (env : LookupEnv) (map : ChainMap) :
    populate_versions env map = none ↔
      (∃ h ∈ attr_heights map.version, get_version env h = none) ∨
        get_version env map.version_self = none := by
  rw [populate_versions]
  cases hg : get_all (get_version env) (attr_heights map.version) with
  | none =>
    simp only [true_iff]
    exact Or.inl ((get_all_eq_none _ _).mp hg)
  | some ordered =>
    cases hs : get_version env map.version_self with
    | none => simp
    | some s =>
      simp only [reduceCtorEq, false_iff, not_or]
      refine ⟨?_, by simp [hs]⟩
      intro hex
      rw [(get_all_eq_none _ _).mpr hex] at hg
      exact absurd hg (by simp)

/-- The retarget fetch fails exactly when the retarget height is
requested and has no timestamp. -/
theorem populate_retarget_eq_none (env : LookupEnv) (map : ChainMap) :
    populate_retarget env map = none ↔
      ∃ h, map.timestamp_retarget = some h ∧ get_timestamp env h = none := by
  rw [populate_retarget]
  cases hrt : map.timestamp_retarget with
  | none =>
    refine iff_of_false (by simp) ?_
    rintro ⟨h2, hh2, _⟩
    exact absurd hh2 (by simp)
  | some hr =>
    cases hrv : get_timestamp env hr with
    | none => exact iff_of_true hrv ⟨hr, rfl, hrv⟩
    | some rv =>
      refine iff_of_false ?_ ?_
      · intro hx
        have hx2 : get_timestamp env hr = none := hx
        rw [hrv] at hx2
        exact absurd hx2 (by simp)
      · rintro ⟨h2, hh2, hv2⟩
        injection hh2 with he
        subst he
        rw [hrv] at hv2
        exact absurd hv2 (by simp)

/-- populate_timestamps fails exactly when a required timestamp
attribute (range, requested retarget, or self) is missing. -/
theorem populate_timestamps_eq_none (env : LookupEnv) (map : ChainMap) :
    populate_timestamps env map = none ↔
      (∃ h ∈ attr_heights map.timestamp, get_timestamp env h = none) ∨
        (∃ h, map.timestamp_retarget = some h ∧ get_timestamp env h = none) ∨
        get_timestamp env map.timestamp_self = none := by
  rw [populate_timestamps]
  cases hg : get_all (get_timestamp env) (attr_heights map.timestamp) with
  | none =>
    exact iff_of_true rfl (Or.inl ((get_all_eq_none _ _).mp hg))
  | some ordered =>
    have hnotrange : ¬ ∃ h ∈ attr_heights map.timestamp,
        get_timestamp env h = none := by
      intro hex
      rw [(get_all_eq_none _ _).mpr hex] at hg
      exact absurd hg (by simp)
    cases hpr : populate_retarget env map with
    | none =>
      exact iff_of_true rfl
        (Or.inr (Or.inl ((populate_retarget_eq_none env map).mp hpr)))
    | some retarget =>
      have hnotret : ¬ ∃ h, map.timestamp_retarget = some h ∧
          get_timestamp env h = none := by
        intro hex
        rw [(populate_retarget_eq_none env map).mpr hex] at hpr
        exact absurd hpr (by simp)
      cases hs : get_timestamp env map.timestamp_self with
      | none => exact iff_of_true rfl (Or.inr (Or.inr rfl))
      | some s =>
        refine iff_of_false (by simp) ?_
        rintro (hex | hret | hself)
        · exact hnotrange hex
        · exact hnotret hret
        · exact absurd hself (by simp)

/-- populate_checkpoint fails exactly when the requested
allow-collisions block hash is missing. -/
theorem populate_checkpoint_eq_none (env : LookupEnv) (map : ChainMap) :
    populate_checkpoint env map = none ↔
      ∃ h, map.allow_collisions_height = some h ∧
        get_block_hash env h = none := by
  rw [populate_checkpoint]
  cases hc : map.allow_collisions_height with
  | none =>
    refine iff_of_false (by simp) ?_
    rintro ⟨h2, hh2, _⟩
    exact absurd hh2 (by simp)
  | some h =>
    cases hv : get_block_hash env h with
    | none => exact iff_of_true hv ⟨h, rfl, hv⟩
    | some v =>
      refine iff_of_false ?_ ?_
      · intro hx
        have hx2 : get_block_hash env h = none := hx
        rw [hv] at hx2
        exact absurd hx2 (by simp)
      · rintro ⟨h2, hh2, hv2⟩
        injection hh2 with he
        subst he
        rw [hv] at hv2
        exact absurd hv2 (by simp)

/-- populate_bits returns one bits value per mapped height. -/
theorem populate_bits_length (env : LookupEnv) (map : ChainMap)
    (p : List Nat × Nat) (h : populate_bits env map = some p) :
    p.1.length = map.bits.count := by
  rw [populate_bits] at h
  cases hg : get_all (get_bits env) (attr_heights map.bits) <;> rw [hg] at h
  · simp at h
  · cases hs : get_bits env map.bits_self <;> rw [hs] at h
    · simp at h
    · simp only [Option.some.injEq] at h
      rw [← h]
      simpa [attr_heights] using get_all_length _ _ _ hg

/-- populate_versions returns one version value per mapped height. -/
theorem populate_versions_length (env : LookupEnv) (map : ChainMap)
    (p : List Nat × Nat) (h : populate_versions env map = some p) :
    p.1.length = map.version.count := by
  rw [populate_versions] at h
  cases hg : get_all (get_version env) (attr_heights map.version) <;>
    rw [hg] at h
  · simp at h
  · cases hs : get_version env map.version_self <;> rw [hs] at h
    · simp at h
    · simp only [Option.some.injEq] at h
      rw [← h]
      simpa [attr_heights] using get_all_length _ _ _ hg

/-- populate_timestamps returns one timestamp value per mapped
height. -/
theorem populate_timestamps_length (env : LookupEnv) (map : ChainMap)
    (p : List Nat × Nat × Nat) (h : populate_timestamps env map = some p) :
    p.1.length = map.timestamp.count := by
  rw [populate_timestamps] at h
  cases hg : get_all (get_timestamp env) (attr_heights map.timestamp) <;>
    rw [hg] at h
  · simp at h
  · cases hpr : populate_retarget env map <;> rw [hpr] at h
    · simp at h
    · cases hs : get_timestamp env map.timestamp_self <;> rw [hs] at h
      · simp at h
      · simp only [Option.some.injEq] at h
        rw [← h]
        simpa [attr_heights] using get_all_length _ _ _ hg

/-- populate_all fails exactly when some required attribute is
missing. -/
theorem populate_all_eq_none (env : LookupEnv) (map : ChainMap) :
    populate_all env map = none ↔ required_missing env map := by
  rw [populate_all, required_missing]
  cases hb : populate_bits env map with
  | none =>
    refine iff_of_true rfl ?_
    rcases (populate_bits_eq_none env map).mp hb with ha | hself
    · exact Or.inl ha
    · exact Or.inr (Or.inl hself)
  | some bitsp =>
    have hnb : ¬ ((∃ h ∈ attr_heights map.bits, get_bits env h = none) ∨
        get_bits env map.bits_self = none) := by
      intro hdisj
      rw [(populate_bits_eq_none env map).mpr hdisj] at hb
      exact absurd hb (by simp)
    rw [not_or] at hnb
    cases hver : populate_versions env map with
    | none =>
      refine iff_of_true rfl ?_
      rcases (populate_versions_eq_none env map).mp hver with ha | hself
      · exact Or.inr (Or.inr (Or.inl ha))
      · exact Or.inr (Or.inr (Or.inr (Or.inl hself)))
    | some versionsp =>
      have hnv : ¬ ((∃ h ∈ attr_heights map.version, get_version env h = none) ∨
          get_version env map.version_self = none) := by
        intro hdisj
        rw [(populate_versions_eq_none env map).mpr hdisj] at hver
        exact absurd hver (by simp)
      rw [not_or] at hnv
      cases ht : populate_timestamps env map with
      | none =>
        refine iff_of_true rfl ?_
        rcases (populate_timestamps_eq_none env map).mp ht with ha | hret | hself
        · exact Or.inr (Or.inr (Or.inr (Or.inr (Or.inl ha))))
        · exact Or.inr (Or.inr (Or.inr (Or.inr (Or.inr (Or.inl hret)))))
        · exact Or.inr (Or.inr (Or.inr (Or.inr (Or.inr (Or.inr (Or.inl hself))))))
      | some timestampsp =>
        have hnt : ¬ ((∃ h ∈ attr_heights map.timestamp,
              get_timestamp env h = none) ∨
            (∃ h, map.timestamp_retarget = some h ∧
              get_timestamp env h = none) ∨
            get_timestamp env map.timestamp_self = none) := by
          intro hdisj
          rw [(populate_timestamps_eq_none env map).mpr hdisj] at ht
          exact absurd ht (by simp)
        rw [not_or, not_or] at hnt
        cases hc : populate_checkpoint env map with
        | none =>
          refine iff_of_true rfl ?_
          exact Or.inr (Or.inr (Or.inr (Or.inr (Or.inr (Or.inr (Or.inr
            ((populate_checkpoint_eq_none env map).mp hc)))))))
        | some ch =>
          have hnc : ¬ ∃ h, map.allow_collisions_height = some h ∧
              get_block_hash env h = none := by
            intro hdisj
            rw [(populate_checkpoint_eq_none env map).mpr hdisj] at hc
            exact absurd hc (by simp)
          refine iff_of_false (by simp) ?_
          rintro (h1 | h2 | h3 | h4 | h5 | h6 | h7 | h8)
          · exact hnb.1 h1
          · exact hnb.2 h2
          · exact hnv.1 h3
          · exact hnv.2 h4
          · exact hnt.1 h5
          · exact hnt.2.1 h6
          · exact hnt.2.2 h7
          · exact hnc h8

/-- C7: chain-state population for a (non-empty, non-promotable) branch
returns no state iff some attribute required by the chain-state map is
available neither from the branch nor from the fast-chain reader; every
per-height lookup tries the branch first, consulting the fast-chain
reader only when the branch does not cover the height; and a returned
state is never partial — its ordered vectors carry one value per mapped
height. -/
theorem c7_populate_branch (env : LookupEnv) (map : ChainMap)
    (promote : ChainData → ChainData) :
    (populate_branch env map false none promote = none ↔
      required_missing env map) ∧
    (∀ h v, env.branch_bits h = some v → get_bits env h = some v) ∧
    (∀ h v, env.branch_version h = some v → get_version env h = some v) ∧
    (∀ h v, env.branch_timestamp h = some v → get_timestamp env h = some v) ∧
    (∀ h v, env.branch_block_hash h = some v → get_block_hash env h = some v) ∧
    (∀ d, populate_branch env map false none promote = some d →
      d.bits_ordered.length = map.bits.count ∧
      d.version_ordered.length = map.version.count ∧
      d.timestamp_ordered.length = map.timestamp.count) := by
  have hpb : populate_branch env map false none promote =
      populate_all env map := rfl
  refine ⟨hpb ▸ populate_all_eq_none env map,
    fun h v hv => by rw [get_bits, hv]; rfl,
    fun h v hv => by rw [get_version, hv]; rfl,
    fun h v hv => by rw [get_timestamp, hv]; rfl,
    fun h v hv => by rw [get_block_hash, hv]; rfl,
    ?_⟩
  intro d hd
  rw [hpb, populate_all] at hd
  cases hb : populate_bits env map <;> rw [hb] at hd
  · simp at hd
  · cases hver : populate_versions env map <;> rw [hver] at hd
    · simp at hd
    · cases ht : populate_timestamps env map <;> rw [ht] at hd
      · simp at hd
      · cases hc : populate_checkpoint env map <;> rw [hc] at hd
        · simp at hd
        · simp only [Option.some.injEq] at hd
          rw [← hd]
          exact ⟨populate_bits_length env map _ hb,
            populate_versions_length env map _ hver,
            populate_timestamps_length env map _ ht⟩

/-- A lookup environment whose branch covers only height 3 (bits 7) and
whose chain has no bits at all. -/
def lookup_env_a : LookupEnv :=
  { branch_bits := fun h => if h = 3 then some 7 else none
    branch_version := fun _ => none
    branch_timestamp := fun _ => none
    branch_block_hash := fun _ => none
    chain_bits := fun _ => none
    chain_version := fun _ => some 0
    chain_timestamp := fun _ => some 0
    chain_block_hash := fun _ => some 0 }

/-- A chain-state map requiring bits at height 5 (not covered). -/
def chain_map_a : ChainMap :=
  { bits := MapRange.mk 5 1
    bits_self := 3
    version := MapRange.mk 0 0
    version_self := 0
    timestamp := MapRange.mk 0 0
    timestamp_self := 0
    timestamp_retarget := none
    allow_collisions_height := none }

/-- Witness for C7: population fails because bits at height 5 is
available from neither side, and the branch-covered height 3 is served
by the branch. -/
theorem c7_populate_branch_witness :
    populate_branch lookup_env_a chain_map_a false none id = none ∧
    get_bits lookup_env_a 3 = some 7 :=
  ⟨(c7_populate_branch lookup_env_a chain_map_a id).1.mpr
      (Or.inl ⟨5, by decide, rfl⟩),
    (c7_populate_branch lookup_env_a chain_map_a id).2.1 3 7 rfl⟩

/-! ## Claim C8: populate bucketing. -/

/-- Membership in a strided loop: exactly the positions
start + step·k below n (fuel-bounded induction). -/
theorem stride_mem_aux (step : Nat) (hstep : 0 < step) :
    ∀ (fuel n position p : Nat), n - position ≤ fuel →
      (p ∈ stride n step position ↔
        position ≤ p ∧ p < n ∧ ∃ k, p = position + step * k) := by
  intro fuel
  induction fuel with
  | zero =>
    intro n position p hle
    rw [stride, dif_neg (by omega)]
    simp only [List.not_mem_nil, false_iff]
    rintro ⟨h1, h2, _⟩
    omega
  | succ fuel ih =>
    intro n position p hle
    rw [stride]
    by_cases hcond : position < n
    · rw [dif_pos ⟨hstep, hcond⟩, List.mem_cons,
        ih n (position + step) p (by omega)]
      constructor
      · rintro (rfl | ⟨h1, h2, k, hk⟩)
        · exact ⟨Nat.le_refl _, hcond, 0, by simp⟩
        · refine ⟨by omega, h2, k + 1, ?_⟩
          rw [Nat.mul_succ]
          omega
      · rintro ⟨h1, h2, k, hk⟩
        cases k with
        | zero =>
          left
          simpa using hk
        | succ k2 =>
          right
          rw [Nat.mul_succ] at hk
          exact ⟨by omega, h2, k2, by omega⟩
    · rw [dif_neg (by omega)]
      simp only [List.not_mem_nil, false_iff]
      rintro ⟨h1, h2, _⟩
      omega

/-- Membership in a strided loop. -/
theorem stride_mem (n step position p : Nat) (hstep : 0 < step) :
    p ∈ stride n step position ↔
      position ≤ p ∧ p < n ∧ ∃ k, p = position + step * k :=
  stride_mem_aux step hstep (n - position) n position p (Nat.le_refl _)

/-- Membership in the per-input pass inside one transaction. -/
theorem input_positions_tx_mem (bucket buckets pos sz p : Nat) :
    p ∈ input_positions_tx bucket buckets pos sz ↔
      pos ≤ p ∧ p < pos + sz ∧ p % buckets = bucket := by
  rw [input_positions_tx]
  simp only [List.mem_filterMap, List.mem_range]
  constructor
  · rintro ⟨i, hi, hif⟩
    by_cases hmod : (pos + i) % buckets = bucket
    · rw [if_pos hmod] at hif
      injection hif with he
      subst he
      exact ⟨by omega, by omega, hmod⟩
    · rw [if_neg hmod] at hif
      exact absurd hif (by simp)
  · rintro ⟨h1, h2, h3⟩
    refine ⟨p - pos, by omega, ?_⟩
    rw [show pos + (p - pos) = p by omega, if_pos h3]

/-- Membership in the per-input pass over a size list. -/
theorem input_positions_go_mem (bucket buckets : Nat) (szs : List Nat) :
    ∀ (pos p : Nat),
      p ∈ input_positions_go bucket buckets szs pos ↔
        pos ≤ p ∧ p < pos + szs.sum ∧ p % buckets = bucket := by
  induction szs with
  | nil =>
    intro pos p
    simp only [input_positions_go, List.not_mem_nil, List.sum_nil, false_iff]
    rintro ⟨h1, h2, _⟩
    omega
  | cons sz rest ih =>
    intro pos p
    simp only [input_positions_go, List.mem_append, input_positions_tx_mem,
      ih, List.sum_cons]
    constructor
    · rintro (⟨h1, h2, h3⟩ | ⟨h1, h2, h3⟩)
      · exact ⟨h1, by omega, h3⟩
      · exact ⟨by omega, by omega, h3⟩
    · rintro ⟨h1, h2, h3⟩
      by_cases hin : p < pos + sz
      · exact Or.inl ⟨h1, hin, h3⟩
      · exact Or.inr ⟨by omega, by omega, h3⟩

/-- A global input position is visited by a bucket iff it is in range
and its residue modulo the bucket count equals the bucket. -/
theorem input_positions_mem (bucket buckets : Nat) (txs : List Transaction)
    (p : Nat) :
    p ∈ input_positions bucket buckets txs ↔
      p < total_non_coinbase_inputs txs ∧ p % buckets = bucket := by
  rw [input_positions, total_non_coinbase_inputs, input_positions_go_mem]
  constructor
  · rintro ⟨_, h2, h3⟩
    exact ⟨by omega, h3⟩
  · rintro ⟨h1, h2⟩
    exact ⟨Nat.zero_le _, by omega, h2⟩

/-- A transaction position is visited by a bucket iff it is below the
transaction count and lies on the bucket's arithmetic progression. -/
theorem tx_positions_mem (bucket buckets n p : Nat) (hb : 0 < buckets) :
    p ∈ tx_positions bucket buckets n ↔
      p < n ∧ ∃ k,
        p = (if bucket = 0 then buckets else bucket) + buckets * k := by
  rw [tx_positions, stride_mem _ _ _ _ hb]
  constructor
  · rintro ⟨h1, h2, k, hk⟩
    exact ⟨h2, k, hk⟩
  · rintro ⟨h1, k, hk⟩
    exact ⟨by omega, h1, k, hk⟩

/-- C8: with B = min(worker slots, non-coinbase input count) buckets,
the buckets partition the populate work: a global input position p is
visited (its previous output populated) exactly by the one bucket equal
to p mod B, and — when the per-transaction pass is enabled — each
non-coinbase transaction position is visited by exactly one bucket.
Hence every (block, input) metadata record is written exactly once. -/
theorem c8_bucket_partition (slots : Nat) (txs : List Transaction)
    (stale collisions : Bool)
    (hslots : 0 < slots) (hinputs : 0 < total_non_coinbase_inputs txs) :
    (∀ p b, b < populate_buckets slots txs →
      (p ∈ (populate_transactions_visits stale collisions b
          (populate_buckets slots txs) txs).2 ↔
        p < total_non_coinbase_inputs txs ∧
          b = p % populate_buckets slots txs)) ∧
    (∀ p, p < total_non_coinbase_inputs txs →
      ∃! b, b < populate_buckets slots txs ∧
        p ∈ (populate_transactions_visits stale collisions b
          (populate_buckets slots txs) txs).2) ∧
    ((stale && collisions) = false →
      ∀ p, 1 ≤ p → p < txs.length →
        ∃! b, b < populate_buckets slots txs ∧
          p ∈ (populate_transactions_visits stale collisions b
            (populate_buckets slots txs) txs).1) := by
  have hBpos : 0 < populate_buckets slots txs := by
    rw [populate_buckets]
    exact lt_min_iff.mpr ⟨hslots, hinputs⟩
  refine ⟨?_, ?_, ?_⟩
  · intro p b hb
    show p ∈ input_positions b (populate_buckets slots txs) txs ↔ _
    rw [input_positions_mem]
    constructor
    · rintro ⟨h1, h2⟩
      exact ⟨h1, h2.symm⟩
    · rintro ⟨h1, h2⟩
      exact ⟨h1, h2.symm⟩
  · intro p hp
    refine ⟨p % populate_buckets slots txs,
      ⟨Nat.mod_lt _ hBpos, ?_⟩, ?_⟩
    · show p ∈ input_positions (p % populate_buckets slots txs)
        (populate_buckets slots txs) txs
      rw [input_positions_mem]
      exact ⟨hp, rfl⟩
    · rintro y ⟨hy, hmem⟩
      exact ((input_positions_mem y _ txs p).mp hmem).2.symm
  · intro hpass p hp1 hpn
    have hcond : (!stale || !collisions) = true := by
      cases stale <;> cases collisions <;> simp_all
    have hvis : ∀ b, (populate_transactions_visits stale collisions b
        (populate_buckets slots txs) txs).1 =
        tx_positions b (populate_buckets slots txs) txs.length := by
      intro b
      simp [populate_transactions_visits, hcond]
    by_cases hr0 : p % populate_buckets slots txs = 0
    · refine ⟨0, ⟨hBpos, ?_⟩, ?_⟩
      · rw [hvis 0, tx_positions_mem _ _ _ _ hBpos]
        refine ⟨hpn, ?_⟩
        rw [if_pos rfl]
        obtain ⟨m, hm⟩ := Nat.dvd_of_mod_eq_zero hr0
        cases m with
        | zero => omega
        | succ m2 =>
          refine ⟨m2, ?_⟩
          rw [hm, Nat.mul_succ]
          omega
      · rintro y ⟨hyB, hymem⟩
        rw [hvis y, tx_positions_mem _ _ _ _ hBpos] at hymem
        obtain ⟨_, k, hk⟩ := hymem
        by_cases hy0 : y = 0
        · exact hy0
        · rw [if_neg hy0] at hk
          have hmod : p % populate_buckets slots txs =
              y % populate_buckets slots txs := by
            rw [hk]
            exact Nat.add_mul_mod_self_left y _ k
          have hyy : y % populate_buckets slots txs = y :=
            Nat.mod_eq_of_lt hyB
          omega
    · refine ⟨p % populate_buckets slots txs,
        ⟨Nat.mod_lt _ hBpos, ?_⟩, ?_⟩
      · rw [hvis _, tx_positions_mem _ _ _ _ hBpos]
        refine ⟨hpn, ?_⟩
        rw [if_neg hr0]
        exact ⟨p / populate_buckets slots txs,
          (Nat.mod_add_div p (populate_buckets slots txs)).symm⟩
      · rintro y ⟨hyB, hymem⟩
        rw [hvis y, tx_positions_mem _ _ _ _ hBpos] at hymem
        obtain ⟨_, k, hk⟩ := hymem
        by_cases hy0 : y = 0
        · subst hy0
          rw [if_pos rfl] at hk
          have hmod : p % populate_buckets slots txs = 0 := by
            rw [hk, show populate_buckets slots txs +
                populate_buckets slots txs * k =
                populate_buckets slots txs * (k + 1) by
              rw [Nat.mul_succ]; omega]
            exact Nat.mul_mod_right _ (k + 1)
          omega
        · rw [if_neg hy0] at hk
          have hmod : p % populate_buckets slots txs =
              y % populate_buckets slots txs := by
            rw [hk]
            exact Nat.add_mul_mod_self_left y _ k
          have hyy : y % populate_buckets slots txs = y :=
            Nat.mod_eq_of_lt hyB
          omega

/-- Three transactions: a coinbase, then two non-coinbase transactions
holding two and one inputs (three non-coinbase inputs in all). -/
def txs_a : List Transaction :=
  [Transaction.mk [Input.mk (OutputPoint.mk 0 0) (Script.mk [])] [] 0,
   Transaction.mk [Input.mk (OutputPoint.mk 1 0) (Script.mk []),
     Input.mk (OutputPoint.mk 1 1) (Script.mk [])] [] 1,
   Transaction.mk [Input.mk (OutputPoint.mk 2 0) (Script.mk [])] [] 2]

/-- Witness for C8: with two worker slots and three non-coinbase
inputs, global input position 1 is visited by exactly one bucket. -/
theorem c8_bucket_partition_witness :
    ∃! b, b < populate_buckets 2 txs_a ∧
      1 ∈ (populate_transactions_visits false false b
        (populate_buckets 2 txs_a) txs_a).2 :=
  (c8_bucket_partition 2 txs_a false false (by decide) (by decide)).2.1 1
    (by decide)
